import Mathlib

/-!
Verification development for `idlecat` (src/idlecat.c): a stream
pass-through filter that classifies input liveliness into Idle/Active
states and invokes external commands on qualifying transitions and on
end-of-stream.

The C program is shallowly embedded as follows.  Times (`time_t`) are
modelled as `Int`.  Bytes are `Nat`.  One iteration of the `while
(!eof_reached)` loop of `main` (lines 112-190) is the function `step`,
driven by a `ReadEvent` describing what `select`/`read` observed in that
iteration and by the single `time(NULL)` snapshot `current_time` taken at
line 128.  A whole run is `run`, folding `step` over a trace of
`(current_time, event)` pairs, honouring the loop condition (once
`eof_reached` is set, remaining events are not processed) and stopping at
fatal errors (`exit(EXIT_FAILURE)`).  The inner write loop (lines
136-147) is `writeLoopAux`, driven by an oracle of `write(2)` results.
-/

namespace Idlecat

/-- Linux errno values used by the program. `EAGAIN` and `EWOULDBLOCK`
are both 11 on Linux; the code tests both names (line 170). -/
def EINTR : Nat := 4

def EAGAIN : Nat := 11

def EWOULDBLOCK : Nat := 11

/-- Configuration structure (idlecat.c lines 17-24).  Commands are
`Option String`: `none` models a `NULL` pointer. -/
structure Config where
  idle_timeout : Int
  idle_to_active_threshold : Int
  active_to_idle_threshold : Int
  idle_to_active_command : Option String
  active_to_idle_command : Option String
  eof_command : Option String
deriving DecidableEq, Repr

/-- Default configuration (lines 11-14 and 40-47): idle timeout 5 s,
idle-to-active threshold 2 min, active-to-idle threshold 3 min, no
commands. -/
def defaultConfig : Config :=
  { idle_timeout := 5
    idle_to_active_threshold := 2 * 60
    active_to_idle_threshold := 3 * 60
    idle_to_active_command := none
    active_to_idle_command := none
    eof_command := none }

/-- C `atoi` on the digit part: consume decimal digits, stop at the
first non-digit. -/
def atoiDigits : List Char → Int → Int
  | [], acc => acc
  | c :: rest, acc =>
      if c.isDigit then atoiDigits rest (acc * 10 + (c.toNat - 48)) else acc

/-- Whitespace characters skipped by `atoi` (C `isspace` in the default
locale). -/
def isSpaceChar (c : Char) : Bool :=
  c = ' ' || c = '\t' || c = '\n' || c = (Char.ofNat 11) || c = (Char.ofNat 12) || c = '\r'

/-- C `atoi`: skip leading whitespace, read an optional sign, then
decimal digits up to the first non-digit; yields 0 when no digits are
found.  (Overflow is undefined behaviour in C and is not modelled.) -/
def atoi (s : String) : Int :=
  match s.data.dropWhile isSpaceChar with
  | '-' :: rest => - atoiDigits rest 0
  | '+' :: rest => atoiDigits rest 0
  | cs => atoiDigits cs 0

/-- One command-line option together with its argument, as dispatched by
the `getopt` loop of `parse_args` (lines 50-86).  `invalid` stands for
any option character not in the option string (getopt returns a question
mark, landing in the `default` arm). -/
inductive OptArg where
  | t (a : String)
  | i (a : String)
  | a (a : String)
  | bigI (a : String)
  | bigA (a : String)
  | bigE (a : String)
  | h
  | invalid
deriving DecidableEq, Repr

/-- One arm of the `switch` in `parse_args` (lines 51-86).  `.error ()`
models `exit(EXIT_FAILURE)` (after a diagnostic on stderr); `print_usage`
also exits with failure status (line 36). -/
def applyOpt (config : Config) : OptArg → Except Unit Config
  | .t s =>
      let v := atoi s
      if v ≤ 0 then .error () else .ok { config with idle_timeout := v }
  | .i s =>
      let v := atoi s
      if v ≤ 0 then .error () else .ok { config with idle_to_active_threshold := v }
  | .a s =>
      let v := atoi s
      if v ≤ 0 then .error () else .ok { config with active_to_idle_threshold := v }
  | .bigI s => .ok { config with idle_to_active_command := some s }
  | .bigA s => .ok { config with active_to_idle_command := some s }
  | .bigE s => .ok { config with eof_command := some s }
  | .h => .error ()
  | .invalid => .error ()

/-- `parse_args` (lines 39-90): start from the defaults and fold the
option arms over the command line; any failing arm terminates the
process before monitoring starts. -/
def parse_args (opts : List OptArg) : Except Unit Config :=
  opts.foldlM applyOpt defaultConfig

/-- The loop-local mutable state of `main` (lines 107-110). -/
structure MonState where
  last_data_time : Int
  state_start_time : Int
  is_idle : Bool
  eof_reached : Bool
deriving DecidableEq, Repr

/-- Initial monitor state (lines 107-110): idle, timestamps at process
start, EOF not reached.  The two consecutive `time(NULL)` calls of lines
107-108 are modelled as a single snapshot. -/
def initState (start : Int) : MonState :=
  { last_data_time := start
    state_start_time := start
    is_idle := true
    eof_reached := false }

/-- An external command invocation performed via `system` during the
run. -/
inductive Action where
  | idleToActive (cmd : String)
  | activeToIdle (cmd : String)
  | onEof (cmd : String)
deriving DecidableEq, Repr

/-- Result of one `write(2)` call in the inner write loop: either a
byte count (possibly a partial write) or `-1` with an errno. -/
inductive WriteResult where
  | wrote (n : Nat)
  | err (e : Nat)
deriving DecidableEq, Repr

/-- Outcome of the write loop: the chunk suffix written from
`bytes_written` onward, a fatal non-EINTR write error
(`exit(EXIT_FAILURE)`, line 144), or an exhausted oracle (the real loop
would still be waiting on further `write` results). -/
inductive WriteOutcome where
  | done (written : List Nat)
  | fatal (e : Nat)
  | starved
deriving DecidableEq, Repr

/-- The write loop of lines 136-147: while `bytes_written < bytes_read`,
issue a `write`; on `-1`/`EINTR` retry, on any other error die, else
advance `bytes_written` by the count written.  Each oracle entry is one
`write` result; the slice actually transferred by a successful call is
`(chunk.drop bw).take n`. -/
def writeLoopAux (chunk : List Nat) : Nat → List WriteResult → WriteOutcome
  | bw, [] => if bw < chunk.length then .starved else .done []
  | bw, r :: rest =>
      if bw < chunk.length then
        match r with
        | .err e => if e = EINTR then writeLoopAux chunk bw rest else .fatal e
        | .wrote n =>
            match writeLoopAux chunk (bw + n) rest with
            | .done w => .done ((chunk.drop bw).take n ++ w)
            | out => out
      else .done []

/-- What the readiness wait and the subsequent `read` observed in one
loop iteration.  `noReady` covers `select` returning 0 (timeout) or the
fd not being set; `data` is `bytes_read > 0` together with the oracle of
`write` results for the chunk; `eofRead` is `bytes_read == 0`; `readErr`
is `bytes_read == -1` with the given errno; `selectErr` is `select`
returning `-1`. -/
inductive ReadEvent where
  | noReady
  | data (bytes : List Nat) (oracle : List WriteResult)
  | eofRead
  | readErr (e : Nat)
  | selectErr
deriving DecidableEq, Repr

/-- Result of one loop iteration: the updated state, the actions invoked
(in invocation order) and the bytes written to stdout; or process death
(`exit(EXIT_FAILURE)`); or a write loop stuck on an exhausted oracle. -/
inductive StepResult where
  | ok (s : MonState) (acts : List Action) (out : List Nat)
  | fatal
  | stalled
deriving DecidableEq, Repr

/-- The idle-to-active branch of lines 149-161, taken when
`bytes_read > 0`: if currently idle, gate the action on
`idle_duration >= idle_to_active_threshold` and the command being
configured, then flip to active with `state_start_time = current_time`;
in all cases finally set `last_data_time = current_time` (line 161, after
the transition check). -/
def dataPhase (config : Config) (s : MonState) (current_time : Int) :
    MonState × List Action :=
  if s.is_idle then
    let idle_duration := current_time - s.state_start_time
    let acts :=
      if idle_duration ≥ config.idle_to_active_threshold then
        match config.idle_to_active_command with
        | some c => [Action.idleToActive c]
        | none => []
      else []
    ({ s with is_idle := false
              state_start_time := current_time
              last_data_time := current_time }, acts)
  else
    ({ s with last_data_time := current_time }, [])

/-- The trailing active-to-idle check of lines 177-189, executed on
every iteration after the read handling: if not idle and
`time_since_last_data >= idle_timeout`, gate the action on
`active_duration >= active_to_idle_threshold` and the command being
configured, then flip to idle with `state_start_time = current_time`. -/
def idleCheck (config : Config) (s : MonState) (current_time : Int) :
    MonState × List Action :=
  if !s.is_idle && current_time - s.last_data_time ≥ config.idle_timeout then
    let active_duration := current_time - s.state_start_time
    let acts :=
      if active_duration ≥ config.active_to_idle_threshold then
        match config.active_to_idle_command with
        | some c => [Action.activeToIdle c]
        | none => []
      else []
    ({ s with is_idle := true, state_start_time := current_time }, acts)
  else (s, [])

/-- One iteration of the main loop body (lines 112-190), given the
single time snapshot of line 128 and the observed read event.  Every
non-fatal path ends with `idleCheck`; note in particular that the
end-of-stream branch (lines 162-167) is followed by the active-to-idle
check of lines 177-189 in the same iteration. -/
def step (config : Config) (s : MonState) (current_time : Int) :
    ReadEvent → StepResult
  | .noReady =>
      let (s1, a1) := idleCheck config s current_time
      .ok s1 a1 []
  | .data bytes oracle =>
      match writeLoopAux bytes 0 oracle with
      | .done w =>
          let (s1, a1) := dataPhase config s current_time
          let (s2, a2) := idleCheck config s1 current_time
          .ok s2 (a1 ++ a2) w
      | .fatal _ => .fatal
      | .starved => .stalled
  | .eofRead =>
      let aEof :=
        match config.eof_command with
        | some c => [Action.onEof c]
        | none => []
      let s1 := { s with eof_reached := true }
      let (s2, a2) := idleCheck config s1 current_time
      .ok s2 (aEof ++ a2) []
  | .readErr e =>
      if e ≠ EAGAIN && e ≠ EWOULDBLOCK then .fatal
      else
        let (s1, a1) := idleCheck config s current_time
        .ok s1 a1 []
  | .selectErr => .fatal

/-- Outcome of a whole run: normal progress or clean EOF exit (`ok`,
exit code 0 once the loop leaves), process death on a fatal error, or a
stalled write loop. -/
inductive RunOutcome where
  | ok (s : MonState) (acts : List Action) (out : List Nat)
  | fatal (s : MonState) (acts : List Action) (out : List Nat)
  | stalled (s : MonState) (acts : List Action) (out : List Nat)
deriving DecidableEq, Repr

/-- Fold the loop over a trace of iterations.  The `while (!eof_reached)`
condition is checked before each iteration: once `eof_reached` holds the
remaining events are not processed and the accumulated observables are
final. -/
def runAux (config : Config) (s : MonState) (acts : List Action)
    (out : List Nat) : List (Int × ReadEvent) → RunOutcome
  | [] => .ok s acts out
  | (current_time, ev) :: rest =>
      if s.eof_reached then .ok s acts out
      else
        match step config s current_time ev with
        | .ok s1 a1 o1 => runAux config s1 (acts ++ a1) (out ++ o1) rest
        | .fatal => .fatal s acts out
        | .stalled => .stalled s acts out

/-- A full run of `main`'s monitoring loop from the initial state. -/
def run (config : Config) (start : Int) (trace : List (Int × ReadEvent)) :
    RunOutcome :=
  runAux config (initState start) [] [] trace

/-- Bytes delivered on the input before end-of-stream: the concatenation
of all data chunks strictly before the first EOF event of the trace. -/
def deliveredBytes : List (Int × ReadEvent) → List Nat
  | [] => []
  | (_, .eofRead) :: _ => []
  | (_, .data bytes _) :: rest => bytes ++ deliveredBytes rest
  | _ :: rest => deliveredBytes rest

/-- Number of EOF-action invocations in a list of actions. -/
def countEof (acts : List Action) : Nat :=
  (acts.filter fun a => match a with | .onEof _ => true | _ => false).length

/-- Spec-side notion, for comparison with the code in claim C5: a string
that is literally a positive decimal integer (an optional plus sign, then
digits only, with positive value). -/
def isPosIntString (s : String) : Bool :=
  let cs := match s.data with
    | '+' :: rest => rest
    | cs => cs
  cs ≠ [] && cs.all Char.isDigit && atoiDigits cs 0 > 0

/-- Sample configuration with a short idle-to-active threshold and an
idle-to-active command, used to exercise the idle-to-active path on
concrete inputs. -/
def cfgI : Config :=
  { idle_timeout := 5
    idle_to_active_threshold := 1
    active_to_idle_threshold := 1
    idle_to_active_command := some "I"
    active_to_idle_command := none
    eof_command := none }

/-- Sample configuration with a short active-to-idle threshold and an
active-to-idle command. -/
def cfgA : Config :=
  { idle_timeout := 5
    idle_to_active_threshold := 1
    active_to_idle_threshold := 1
    idle_to_active_command := none
    active_to_idle_command := some "A"
    eof_command := none }

/-- Default configuration with an EOF command. -/
def cfgE : Config := { defaultConfig with eof_command := some "E" }

/-- A sample reachable Active state: data was last seen at time 0, the
Active state was entered at time 0. -/
def activeS0 : MonState :=
  { last_data_time := 0, state_start_time := 0, is_idle := false, eof_reached := false }

/-! ## Helper lemmas -/

lemma writeLoopAux_done (chunk : List Nat) (rs : List WriteResult) :
    ∀ bw w, writeLoopAux chunk bw rs = WriteOutcome.done w → w = chunk.drop bw := by
  induction rs with
  | nil =>
      intro bw w h
      simp only [writeLoopAux] at h
      split at h
      · exact absurd h (by simp)
      · next hbw =>
          injection h with h1
          rw [← h1, List.drop_eq_nil_of_le (by omega)]
  | cons r rest ih =>
      intro bw w h
      simp only [writeLoopAux] at h
      split at h
      · next hbw =>
          match r with
          | .err e =>
              simp only at h
              split at h
              · exact ih bw w h
              · exact absurd h (by simp)
          | .wrote n =>
              simp only at h
              cases hrec : writeLoopAux chunk (bw + n) rest with
              | done w1 =>
                  rw [hrec] at h
                  injection h with h1
                  rw [← h1, ih (bw + n) w1 hrec, ← List.drop_drop,
                    List.take_append_drop]
              | fatal e => rw [hrec] at h; exact absurd h (by simp)
              | starved => rw [hrec] at h; exact absurd h (by simp)
      · next hbw =>
          injection h with h1
          rw [← h1, List.drop_eq_nil_of_le (by omega)]

lemma idleCheck_eof (config : Config) (s : MonState) (t : Int) :
    (idleCheck config s t).1.eof_reached = s.eof_reached := by
  simp only [idleCheck]
  split <;> rfl

lemma idleCheck_last_data (config : Config) (s : MonState) (t : Int) :
    (idleCheck config s t).1.last_data_time = s.last_data_time := by
  simp only [idleCheck]
  split <;> rfl

lemma idleCheck_state (config : Config) (s : MonState) (t : Int) :
    ((idleCheck config s t).1.is_idle = s.is_idle ∧
      (idleCheck config s t).1.state_start_time = s.state_start_time) ∨
    ((idleCheck config s t).1.is_idle = !s.is_idle ∧
      (idleCheck config s t).1.state_start_time = t ∧ s.is_idle = false) := by
  simp only [idleCheck]
  split
  · next hcond =>
      right
      have hif : s.is_idle = false := by
        rcases Bool.and_eq_true .. |>.mp hcond with ⟨hl, _⟩
        simpa using hl
      simp [hif]
  · left
    simp

lemma dataPhase_eof (config : Config) (s : MonState) (t : Int) :
    (dataPhase config s t).1.eof_reached = s.eof_reached := by
  simp only [dataPhase]
  split <;> rfl

lemma countEof_append (a b : List Action) :
    countEof (a ++ b) = countEof a + countEof b := by
  simp [countEof, List.filter_append]

lemma countEof_idleCheck (config : Config) (s : MonState) (t : Int) :
    countEof (idleCheck config s t).2 = 0 := by
  simp only [idleCheck]
  split
  · split
    · cases config.active_to_idle_command <;> simp [countEof]
    · simp [countEof]
  · simp [countEof]

lemma countEof_dataPhase (config : Config) (s : MonState) (t : Int) :
    countEof (dataPhase config s t).2 = 0 := by
  simp only [dataPhase]
  split
  · split
    · cases config.idle_to_active_command <;> simp [countEof]
    · simp [countEof]
  · simp [countEof]

lemma step_noReady (config : Config) (s : MonState) (t : Int) :
    step config s t ReadEvent.noReady =
      StepResult.ok (idleCheck config s t).1 (idleCheck config s t).2 [] := by
  rcases h : idleCheck config s t with ⟨s1, a1⟩
  simp [step, h]

lemma step_eofRead (config : Config) (s : MonState) (t : Int) :
    step config s t ReadEvent.eofRead =
      StepResult.ok (idleCheck config { s with eof_reached := true } t).1
        ((match config.eof_command with
          | some c => [Action.onEof c]
          | none => []) ++ (idleCheck config { s with eof_reached := true } t).2)
        [] := by
  rcases h : idleCheck config { s with eof_reached := true } t with ⟨s1, a1⟩
  simp [step, h]

lemma step_data_done (config : Config) (s : MonState) (t : Int)
    (bytes : List Nat) (oracle : List WriteResult) (w : List Nat)
    (hw : writeLoopAux bytes 0 oracle = WriteOutcome.done w) :
    step config s t (ReadEvent.data bytes oracle) =
      StepResult.ok (idleCheck config (dataPhase config s t).1 t).1
        ((dataPhase config s t).2 ++ (idleCheck config (dataPhase config s t).1 t).2)
        w := by
  rcases h1 : dataPhase config s t with ⟨s1, a1⟩
  rcases h2 : idleCheck config s1 t with ⟨s2, a2⟩
  simp [step, hw, h1, h2]

lemma step_data_fatal (config : Config) (s : MonState) (t : Int)
    (bytes : List Nat) (oracle : List WriteResult) (e : Nat)
    (hw : writeLoopAux bytes 0 oracle = WriteOutcome.fatal e) :
    step config s t (ReadEvent.data bytes oracle) = StepResult.fatal := by
  simp [step, hw]

lemma step_data_starved (config : Config) (s : MonState) (t : Int)
    (bytes : List Nat) (oracle : List WriteResult)
    (hw : writeLoopAux bytes 0 oracle = WriteOutcome.starved) :
    step config s t (ReadEvent.data bytes oracle) = StepResult.stalled := by
  simp [step, hw]

lemma step_readErr_wouldBlock (config : Config) (s : MonState) (t : Int) (e : Nat)
    (he : e = EAGAIN ∨ e = EWOULDBLOCK) :
    step config s t (ReadEvent.readErr e) = step config s t ReadEvent.noReady := by
  rcases h : idleCheck config s t with ⟨s1, a1⟩
  rcases he with he | he <;> simp [step, h, he, EAGAIN, EWOULDBLOCK]

lemma step_readErr_fatal (config : Config) (s : MonState) (t : Int) (e : Nat)
    (he1 : e ≠ EAGAIN) (he2 : e ≠ EWOULDBLOCK) :
    step config s t (ReadEvent.readErr e) = StepResult.fatal := by
  simp [step, he1, he2]

lemma runAux_ok_out (config : Config) (trace : List (Int × ReadEvent)) :
    ∀ (s : MonState) (acts : List Action) (out : List Nat)
      (s1 : MonState) (acts1 : List Action) (out1 : List Nat),
      runAux config s acts out trace = RunOutcome.ok s1 acts1 out1 →
      out1 = out ++ (if s.eof_reached then [] else deliveredBytes trace) := by
  induction trace with
  | nil =>
      intro s acts out s1 acts1 out1 h
      simp only [runAux] at h
      injection h with h1 h2 h3
      simp [h3.symm, deliveredBytes]
  | cons p rest ih =>
      rcases p with ⟨t, ev⟩
      intro s acts out s1 acts1 out1 h
      simp only [runAux] at h
      split at h
      · next hs =>
          injection h with h1 h2 h3
          simp [hs, h3.symm]
      · next hs =>
          rw [Bool.not_eq_true] at hs
          cases ev with
          | noReady =>
              rw [step_noReady] at h
              simp only at h
              have := ih _ _ _ _ _ _ h
              simp [this, idleCheck_eof, hs, deliveredBytes]
          | data bytes oracle =>
              cases hw : writeLoopAux bytes 0 oracle with
              | done w =>
                  rw [step_data_done config s t bytes oracle w hw] at h
                  simp only at h
                  have := ih _ _ _ _ _ _ h
                  have hwb : w = bytes := by
                    have := writeLoopAux_done bytes oracle 0 w hw
                    simpa using this
                  simp [this, idleCheck_eof, dataPhase_eof, hs, hwb,
                    deliveredBytes, List.append_assoc]
              | fatal e =>
                  rw [step_data_fatal config s t bytes oracle e hw] at h
                  simp only at h
                  exact absurd h (by simp)
              | starved =>
                  rw [step_data_starved config s t bytes oracle hw] at h
                  simp only at h
                  exact absurd h (by simp)
          | eofRead =>
              rw [step_eofRead] at h
              simp only at h
              have := ih _ _ _ _ _ _ h
              simp [this, idleCheck_eof, hs, deliveredBytes]
          | readErr e =>
              by_cases he : e = EAGAIN ∨ e = EWOULDBLOCK
              · rw [step_readErr_wouldBlock config s t e he, step_noReady] at h
                simp only at h
                have := ih _ _ _ _ _ _ h
                simp [this, idleCheck_eof, hs, deliveredBytes]
              · push_neg at he
                rw [step_readErr_fatal config s t e he.1 he.2] at h
                simp only at h
                exact absurd h (by simp)
          | selectErr =>
              simp only [step] at h
              exact absurd h (by simp)

lemma step_countEof (config : Config) (s : MonState) (t : Int) (ev : ReadEvent)
    (s1 : MonState) (a1 : List Action) (o1 : List Nat)
    (hs : s.eof_reached = false)
    (h : step config s t ev = StepResult.ok s1 a1 o1) :
    countEof a1 = (if s1.eof_reached && config.eof_command.isSome then 1 else 0) := by
  cases ev with
  | noReady =>
      rw [step_noReady] at h
      injection h with h1 h2 h3
      simp [← h1, ← h2, countEof_idleCheck, idleCheck_eof, hs]
  | data bytes oracle =>
      cases hw : writeLoopAux bytes 0 oracle with
      | done w =>
          rw [step_data_done config s t bytes oracle w hw] at h
          injection h with h1 h2 h3
          simp [← h1, ← h2, countEof_append, countEof_idleCheck, countEof_dataPhase,
            idleCheck_eof, dataPhase_eof, hs]
      | fatal e =>
          rw [step_data_fatal config s t bytes oracle e hw] at h
          exact absurd h (by simp)
      | starved =>
          rw [step_data_starved config s t bytes oracle hw] at h
          exact absurd h (by simp)
  | eofRead =>
      rw [step_eofRead] at h
      injection h with h1 h2 h3
      rw [← h1, ← h2, countEof_append, countEof_idleCheck, idleCheck_eof]
      cases config.eof_command <;> simp [countEof]
  | readErr e =>
      by_cases he : e = EAGAIN ∨ e = EWOULDBLOCK
      · rw [step_readErr_wouldBlock config s t e he, step_noReady] at h
        injection h with h1 h2 h3
        simp [← h1, ← h2, countEof_idleCheck, idleCheck_eof, hs]
      · push_neg at he
        rw [step_readErr_fatal config s t e he.1 he.2] at h
        exact absurd h (by simp)
  | selectErr =>
      simp only [step] at h
      exact absurd h (by simp)

lemma runAux_countEof (config : Config) (trace : List (Int × ReadEvent)) :
    ∀ (s : MonState) (acts : List Action) (out : List Nat)
      (s1 : MonState) (acts1 : List Action) (out1 : List Nat),
      runAux config s acts out trace = RunOutcome.ok s1 acts1 out1 →
      countEof acts1 + (if s.eof_reached && config.eof_command.isSome then 1 else 0) =
        countEof acts + (if s1.eof_reached && config.eof_command.isSome then 1 else 0) := by
  induction trace with
  | nil =>
      intro s acts out s1 acts1 out1 h
      simp only [runAux] at h
      injection h with h1 h2 h3
      rw [h1, h2]
  | cons p rest ih =>
      rcases p with ⟨t, ev⟩
      intro s acts out s1 acts1 out1 h
      simp only [runAux] at h
      split at h
      · next hs =>
          injection h with h1 h2 h3
          rw [h1, h2]
      · next hs =>
          rw [Bool.not_eq_true] at hs
          cases hstep : step config s t ev with
          | ok s2 a2 o2 =>
              rw [hstep] at h
              simp only at h
              have hrec := ih _ _ _ _ _ _ h
              have hstepc := step_countEof config s t ev s2 a2 o2 hs hstep
              rw [countEof_append] at hrec
              have h0 : (if (s.eof_reached && config.eof_command.isSome) = true
                  then 1 else 0) = 0 := by simp [hs]
              omega
          | fatal =>
              rw [hstep] at h
              simp only at h
              exact absurd h (by simp)
          | stalled =>
              rw [hstep] at h
              simp only at h
              exact absurd h (by simp)

/-! ## Claim theorems -/

/-- C7: for every chunk of bytes successfully read, the write loop of
lines 136-147 retries on partial writes and on EINTR write failures
until the full chunk has been written: whenever the loop completes, the
bytes written are exactly the chunk; an EINTR result is retried without
emitting anything; any other write error terminates the process with a
failure status (`exit(EXIT_FAILURE)`, modelled as `WriteOutcome.fatal`). -/
theorem write_loop_spec :
    (∀ (chunk : List Nat) (oracle : List WriteResult) (w : List Nat),
      writeLoopAux chunk 0 oracle = WriteOutcome.done w → w = chunk) ∧
    (∀ (chunk : List Nat) (bw : Nat) (rest : List WriteResult),
      bw < chunk.length →
      writeLoopAux chunk bw (WriteResult.err EINTR :: rest) =
        writeLoopAux chunk bw rest) ∧
    (∀ (chunk : List Nat) (bw : Nat) (e : Nat) (rest : List WriteResult),
      bw < chunk.length → e ≠ EINTR →
      writeLoopAux chunk bw (WriteResult.err e :: rest) = WriteOutcome.fatal e) := by
  refine ⟨fun chunk oracle w h => ?_, fun chunk bw rest hbw => ?_,
    fun chunk bw e rest hbw he => ?_⟩
  · simpa using writeLoopAux_done chunk oracle 0 w h
  · simp [writeLoopAux, hbw]
  · simp [writeLoopAux, hbw, he]

/-- Witness for C7: the three parts of `write_loop_spec` evaluated on
concrete inputs (a partial write followed by an EINTR retry and the
rest of the chunk; an EINTR in front of a successful write; an EPIPE-like
error). -/
theorem write_loop_spec_witness :
    ([5, 6] : List Nat) = [5, 6] ∧
    writeLoopAux [5, 6] 0 [WriteResult.err EINTR, WriteResult.wrote 2] =
      writeLoopAux [5, 6] 0 [WriteResult.wrote 2] ∧
    writeLoopAux [5, 6] 0 [WriteResult.err 32, WriteResult.wrote 2] =
      WriteOutcome.fatal 32 :=
  ⟨write_loop_spec.1 [5, 6]
      [WriteResult.wrote 1, WriteResult.err EINTR, WriteResult.wrote 1] [5, 6]
      (by decide),
    write_loop_spec.2.1 [5, 6] 0 [WriteResult.wrote 2] (by decide),
    write_loop_spec.2.2 [5, 6] 0 32 [WriteResult.wrote 2] (by decide) (by decide)⟩

/-- C5 counterexample: the string "3abc" is not a positive integer, yet
`-t 3abc` is accepted: `atoi` (line 53) stops at the first non-digit and
yields 3, which passes the positivity check, so the process does not
exit and monitoring begins with idle_timeout = 3.  This refutes the part
of the claim stating that every argument string that is not a positive
integer (including malformed strings) is rejected. -/
theorem atoi_accepts_malformed_cex :
    parse_args [OptArg.t "3abc"] =
      Except.ok { defaultConfig with idle_timeout := 3 } ∧
    isPosIntString "3abc" = false := by
  exact ⟨rfl, by decide⟩

/-- C5 amended: each of -t, -i, -a converts its argument with C `atoi`
(leading whitespace skipped, optional sign, digits up to the first
non-digit, 0 when no digits); the process exits with a failure status
(after a diagnostic on stderr) before any monitoring begins if and only
if the converted value is not positive.  In particular a string with
trailing garbage after a positive numeric prefix is accepted with that
prefix value. -/
theorem numeric_option_validation (config : Config) (s : String) :
    (atoi s ≤ 0 →
      applyOpt config (OptArg.t s) = Except.error () ∧
      applyOpt config (OptArg.i s) = Except.error () ∧
      applyOpt config (OptArg.a s) = Except.error ()) ∧
    (0 < atoi s →
      applyOpt config (OptArg.t s) =
        Except.ok { config with idle_timeout := atoi s } ∧
      applyOpt config (OptArg.i s) =
        Except.ok { config with idle_to_active_threshold := atoi s } ∧
      applyOpt config (OptArg.a s) =
        Except.ok { config with active_to_idle_threshold := atoi s }) := by
  constructor
  · intro h
    refine ⟨?_, ?_, ?_⟩ <;> simp [applyOpt, h]
  · intro h
    have h2 : ¬ atoi s ≤ 0 := by omega
    refine ⟨?_, ?_, ?_⟩ <;> simp [applyOpt, h2]

/-- Witness for C5: "7" is accepted as 7 and "-3" is rejected. -/
theorem numeric_option_validation_witness :
    (0 < atoi "7" ∧
      applyOpt defaultConfig (OptArg.t "7") =
        Except.ok { defaultConfig with idle_timeout := atoi "7" }) ∧
    (atoi "-3" ≤ 0 ∧
      applyOpt defaultConfig (OptArg.t "-3") = Except.error ()) :=
  ⟨⟨by decide, ((numeric_option_validation defaultConfig "7").2 (by decide)).1⟩,
    ⟨by decide, ((numeric_option_validation defaultConfig "-3").1 (by decide)).1⟩⟩

/-- C6: the initial monitor state (lines 107-110) is Idle with both
`last_data_time` and `state_start_time` set to the process start time
and end-of-stream not yet reached; and since the activity state is a
single boolean, exactly one of Idle/Active holds in every state of the
run. -/
theorem initial_state_spec (start : Int) :
    initState start =
      { last_data_time := start, state_start_time := start,
        is_idle := true, eof_reached := false } ∧
    (∀ s : MonState,
      (s.is_idle = true ∧ ¬ s.is_idle = false) ∨
      (s.is_idle = false ∧ ¬ s.is_idle = true)) := by
  refine ⟨rfl, fun s => ?_⟩
  cases h : s.is_idle <;> simp

/-- Witness for C6: the initial-state equation at start time 0. -/
theorem initial_state_spec_witness :
    initState 0 =
      { last_data_time := 0, state_start_time := 0,
        is_idle := true, eof_reached := false } :=
  (initial_state_spec 0).1

/-- C3: whenever a read returns more than zero bytes while the monitor
is Idle (lines 149-161), the state unconditionally becomes Active with
`state_start_time` set to the iteration's single time snapshot; the
idle-to-active action is invoked iff
`current_time - state_start_time >= idle_to_active_threshold` (the
dwell time in the state being left, evaluated before `last_data_time`
is updated at line 161) and the command is configured; and
`last_data_time` ends up at the snapshot.  The positivity of
`idle_timeout`, guaranteed by `parse_args`, ensures the trailing
active-to-idle check of the same iteration cannot immediately undo the
transition (`current_time - current_time = 0 < idle_timeout`). -/
theorem idle_data_transition (config : Config) (s : MonState) (current_time : Int)
    (bytes : List Nat) (oracle : List WriteResult) (w : List Nat)
    (hidle : s.is_idle = true) (htimeout : 0 < config.idle_timeout)
    (_hbytes : bytes ≠ []) (hw : writeLoopAux bytes 0 oracle = WriteOutcome.done w) :
    step config s current_time (ReadEvent.data bytes oracle) =
      StepResult.ok
        { s with is_idle := false, state_start_time := current_time,
                 last_data_time := current_time }
        (if current_time - s.state_start_time ≥ config.idle_to_active_threshold then
          match config.idle_to_active_command with
          | some c => [Action.idleToActive c]
          | none => []
        else [])
        bytes := by
  have hwb : w = bytes := by simpa using writeLoopAux_done bytes oracle 0 w hw
  rw [step_data_done config s current_time bytes oracle w hw, hwb]
  have h0 : ¬ ((0 : Int) ≥ config.idle_timeout) := by omega
  simp [dataPhase, idleCheck, hidle, h0]

/-- Witness for C3: from the Idle initial state, a one-byte read at
time 2 with threshold 1 flips to Active and fires the idle-to-active
action. -/
theorem idle_data_transition_witness :
    step cfgI (initState 0) 2 (ReadEvent.data [7] [WriteResult.wrote 1]) =
      StepResult.ok
        { last_data_time := 2, state_start_time := 2,
          is_idle := false, eof_reached := false }
        [Action.idleToActive "I"] [7] :=
  (idle_data_transition cfgI (initState 0) 2 [7] [WriteResult.wrote 1] [7]
      rfl (by decide) (by decide) (by decide)).trans (by decide)

/-- C10 (frame effect): when a read returns more than zero bytes while
the monitor is already Active, the iteration changes only
`last_data_time` (to the snapshot): `is_idle`, `state_start_time` and
`eof_reached` are unchanged, no action is invoked, and the chunk is
forwarded unmodified.  The configuration is immutable by construction
(it is not part of `MonState` and `step` never produces one). -/
theorem active_data_frame (config : Config) (s : MonState) (current_time : Int)
    (bytes : List Nat) (oracle : List WriteResult) (w : List Nat)
    (hactive : s.is_idle = false) (htimeout : 0 < config.idle_timeout)
    (_hbytes : bytes ≠ []) (hw : writeLoopAux bytes 0 oracle = WriteOutcome.done w) :
    step config s current_time (ReadEvent.data bytes oracle) =
      StepResult.ok { s with last_data_time := current_time } [] bytes := by
  have hwb : w = bytes := by simpa using writeLoopAux_done bytes oracle 0 w hw
  rw [step_data_done config s current_time bytes oracle w hw, hwb]
  have h0 : ¬ ((0 : Int) ≥ config.idle_timeout) := by omega
  simp [dataPhase, idleCheck, hactive, h0]

/-- Witness for C10: a read in the Active state at time 1 only moves
`last_data_time` to 1. -/
theorem active_data_frame_witness :
    step defaultConfig activeS0 1 (ReadEvent.data [9] [WriteResult.wrote 1]) =
      StepResult.ok
        { last_data_time := 1, state_start_time := 0,
          is_idle := false, eof_reached := false }
        [] [9] :=
  (active_data_frame defaultConfig activeS0 1 [9] [WriteResult.wrote 1] [9]
      rfl (by decide) (by decide) (by decide)).trans (by decide)

/-- C4: the active-to-idle check (lines 177-189) runs on every loop
iteration after the read handling; whenever the monitor is Active and
`current_time - last_data_time >= idle_timeout`, the state
unconditionally becomes Idle with `state_start_time` set to the
iteration's snapshot, and the active-to-idle action is invoked iff
`current_time - state_start_time >= active_to_idle_threshold` (the
dwell time of the state being left, evaluated before the state fields
are overwritten) and the command is configured.  The second conjunct
records that an iteration without data consists exactly of this check. -/
theorem active_timeout_transition (config : Config) (s : MonState)
    (current_time : Int) (hactive : s.is_idle = false)
    (htimeout : current_time - s.last_data_time ≥ config.idle_timeout) :
    idleCheck config s current_time =
      ({ s with is_idle := true, state_start_time := current_time },
        if current_time - s.state_start_time ≥ config.active_to_idle_threshold then
          match config.active_to_idle_command with
          | some c => [Action.activeToIdle c]
          | none => []
        else []) ∧
    step config s current_time ReadEvent.noReady =
      StepResult.ok (idleCheck config s current_time).1
        (idleCheck config s current_time).2 [] := by
  refine ⟨?_, step_noReady config s current_time⟩
  simp [idleCheck, hactive, htimeout]

/-- Witness for C4: in the Active state with last data at time 0,
a dataless iteration at time 6 (idle timeout 5) flips to Idle and fires
the active-to-idle action (threshold 1 met). -/
theorem active_timeout_transition_witness :
    idleCheck cfgA activeS0 6 =
      ({ last_data_time := 0, state_start_time := 6,
         is_idle := true, eof_reached := false },
        [Action.activeToIdle "A"]) :=
  ((active_timeout_transition cfgA activeS0 6 rfl (by decide)).1).trans (by decide)

/-- C8: a read failing with EAGAIN/EWOULDBLOCK (lines 168-174) is
treated exactly as an iteration in which no data was available: the
same state transformation as a `noReady` iteration (in particular
`last_data_time` is untouched, as the second conjunct records), and no
termination; every other read errno terminates the process with a
failure status. -/
theorem read_error_spec (config : Config) (s : MonState) (current_time : Int)
    (e : Nat) :
    ((e = EAGAIN ∨ e = EWOULDBLOCK) →
      step config s current_time (ReadEvent.readErr e) =
        step config s current_time ReadEvent.noReady) ∧
    (idleCheck config s current_time).1.last_data_time = s.last_data_time ∧
    ((e ≠ EAGAIN ∧ e ≠ EWOULDBLOCK) →
      step config s current_time (ReadEvent.readErr e) = StepResult.fatal) :=
  ⟨step_readErr_wouldBlock config s current_time e,
    idleCheck_last_data config s current_time,
    fun h => step_readErr_fatal config s current_time e h.1 h.2⟩

/-- Witness for C8: errno 11 (EAGAIN/EWOULDBLOCK) behaves like a
dataless iteration; errno 9 (EBADF, say) is fatal. -/
theorem read_error_spec_witness :
    step defaultConfig activeS0 3 (ReadEvent.readErr 11) =
      step defaultConfig activeS0 3 ReadEvent.noReady ∧
    step defaultConfig activeS0 3 (ReadEvent.readErr 9) = StepResult.fatal :=
  ⟨(read_error_spec defaultConfig activeS0 3 11).1 (Or.inl rfl),
    (read_error_spec defaultConfig activeS0 3 9).2.2 ⟨by decide, by decide⟩⟩

/-- C9: in every non-fatal loop iteration, `is_idle` and
`state_start_time` change together: either both are untouched, or the
state flips and `state_start_time` is set to the iteration's single
time snapshot.  `state_start_time` is never moved without a flip and
never set to anything other than the snapshot.  The positivity of
`idle_timeout` (guaranteed by `parse_args`) rules out a double flip
(idle to active and back) within one iteration. -/
theorem state_and_entered_time_change_together (config : Config) (s : MonState)
    (current_time : Int) (ev : ReadEvent) (s1 : MonState) (acts : List Action)
    (out : List Nat) (htimeout : 0 < config.idle_timeout)
    (h : step config s current_time ev = StepResult.ok s1 acts out) :
    (s1.is_idle = s.is_idle ∧ s1.state_start_time = s.state_start_time) ∨
    (s1.is_idle = !s.is_idle ∧ s1.state_start_time = current_time) := by
  cases ev with
  | noReady =>
      rw [step_noReady] at h
      injection h with h1 h2 h3
      rw [← h1]
      rcases idleCheck_state config s current_time with ⟨ha, hb⟩ | ⟨ha, hb, _⟩
      · exact Or.inl ⟨ha, hb⟩
      · exact Or.inr ⟨ha, hb⟩
  | data bytes oracle =>
      cases hw : writeLoopAux bytes 0 oracle with
      | done w =>
          rw [step_data_done config s current_time bytes oracle w hw] at h
          injection h with h1 h2 h3
          rw [← h1]
          have h0 : ¬ ((0 : Int) ≥ config.idle_timeout) := by omega
          by_cases hidle : s.is_idle = true
          · right
            have hd : (dataPhase config s current_time).1 =
                { s with is_idle := false, state_start_time := current_time,
                         last_data_time := current_time } := by
              simp [dataPhase, hidle]
            rw [hd]
            simp [idleCheck, h0, hidle]
          · left
            have hif : s.is_idle = false := by simpa using hidle
            have hd : (dataPhase config s current_time).1 =
                { s with last_data_time := current_time } := by
              simp [dataPhase, hif]
            rw [hd]
            simp [idleCheck, h0, hif]
      | fatal e =>
          rw [step_data_fatal config s current_time bytes oracle e hw] at h
          exact absurd h (by simp)
      | starved =>
          rw [step_data_starved config s current_time bytes oracle hw] at h
          exact absurd h (by simp)
  | eofRead =>
      rw [step_eofRead] at h
      injection h with h1 h2 h3
      rw [← h1]
      rcases idleCheck_state config { s with eof_reached := true } current_time
        with ⟨ha, hb⟩ | ⟨ha, hb, _⟩
      · exact Or.inl ⟨ha, hb⟩
      · exact Or.inr ⟨ha, hb⟩
  | readErr e =>
      by_cases he : e = EAGAIN ∨ e = EWOULDBLOCK
      · rw [step_readErr_wouldBlock config s current_time e he, step_noReady] at h
        injection h with h1 h2 h3
        rw [← h1]
        rcases idleCheck_state config s current_time with ⟨ha, hb⟩ | ⟨ha, hb, _⟩
        · exact Or.inl ⟨ha, hb⟩
        · exact Or.inr ⟨ha, hb⟩
      · push_neg at he
        rw [step_readErr_fatal config s current_time e he.1 he.2] at h
        exact absurd h (by simp)
  | selectErr =>
      simp only [step] at h
      exact absurd h (by simp)

/-- Witness for C9: a dataless iteration in the Idle initial state
leaves both `is_idle` and `state_start_time` unchanged. -/
theorem state_and_entered_time_change_together_witness :
    ((initState 0).is_idle = (initState 0).is_idle ∧
      (initState 0).state_start_time = (initState 0).state_start_time) ∨
    ((initState 0).is_idle = !(initState 0).is_idle ∧
      (initState 0).state_start_time = 1) :=
  state_and_entered_time_change_together defaultConfig (initState 0) 1
    ReadEvent.noReady (initState 0) [] [] (by decide) (by decide)

/-- C2: in every run that terminates without a fatal error, the bytes
written to the output are exactly the bytes delivered on the input
before end-of-stream, in order, with no insertions, drops or
reordering, independently of the state transitions and actions of the
run. -/
theorem passthrough_exact (config : Config) (start : Int)
    (trace : List (Int × ReadEvent)) (s : MonState) (acts : List Action)
    (out : List Nat) (h : run config start trace = RunOutcome.ok s acts out) :
    out = deliveredBytes trace := by
  have hout := runAux_ok_out config trace (initState start) [] [] s acts out h
  simpa [initState] using hout

/-- Witness for C2: a two-chunk run ending in EOF forwards exactly the
concatenation of the chunks. -/
theorem passthrough_exact_witness :
    ([1, 2, 3] : List Nat) =
      deliveredBytes
        [(0, ReadEvent.data [1, 2] [WriteResult.wrote 2]),
         (1, ReadEvent.data [3] [WriteResult.wrote 1]),
         (2, ReadEvent.eofRead)] :=
  passthrough_exact defaultConfig 0
    [(0, ReadEvent.data [1, 2] [WriteResult.wrote 2]),
     (1, ReadEvent.data [3] [WriteResult.wrote 1]),
     (2, ReadEvent.eofRead)]
    { last_data_time := 1, state_start_time := 0,
      is_idle := false, eof_reached := true }
    [] [1, 2, 3] (by decide)

/-- C1 counterexample: with idle_timeout 5, an active-to-idle command
"A" and an EOF command "E", feed one byte at time 0 (the monitor
becomes Active) and end-of-stream at time 5.  The EOF iteration sets
`eof_reached`, invokes "E", and then the trailing check of lines
177-189 still runs in the same iteration: since
`current_time - last_data_time = 5 >= idle_timeout`, the state flips
Active to Idle (`state_start_time` becomes 5) and the action "A" fires
after the EOF action.  The second conjunct shows the monitor was
Active just before the EOF iteration.  This refutes the claim that
once end-of-stream is observed no further activity-state transitions
occur. -/
theorem eof_trailing_transition_cex :
    run
        { idle_timeout := 5, idle_to_active_threshold := 1,
          active_to_idle_threshold := 1, idle_to_active_command := none,
          active_to_idle_command := some "A", eof_command := some "E" } 0
        [(0, ReadEvent.data [104] [WriteResult.wrote 1]), (5, ReadEvent.eofRead)] =
      RunOutcome.ok
        { last_data_time := 0, state_start_time := 5,
          is_idle := true, eof_reached := true }
        [Action.onEof "E", Action.activeToIdle "A"] [104] ∧
    run
        { idle_timeout := 5, idle_to_active_threshold := 1,
          active_to_idle_threshold := 1, idle_to_active_command := none,
          active_to_idle_command := some "A", eof_command := some "E" } 0
        [(0, ReadEvent.data [104] [WriteResult.wrote 1])] =
      RunOutcome.ok
        { last_data_time := 0, state_start_time := 0,
          is_idle := false, eof_reached := false }
        [] [104] := by
  exact ⟨by decide, by decide⟩

/-- C1 amended: once `eof_reached` is set, the loop performs no further
iterations, so no further reads, forwarded writes, or state transitions
occur (first conjunct); the iteration that observes EOF forwards no
bytes and leaves `eof_reached` set (second conjunct) -- though within
that same iteration, after the EOF action, the trailing active-to-idle
check still runs and may perform one final Active-to-Idle transition
and action; and over any non-fatal run the EOF action is invoked
exactly once if EOF was reached and a command is configured, and never
otherwise (third conjunct). -/
theorem eof_terminal_amended :
    (∀ (config : Config) (s : MonState) (acts : List Action) (out : List Nat)
        (rest : List (Int × ReadEvent)), s.eof_reached = true →
        runAux config s acts out rest = RunOutcome.ok s acts out) ∧
    (∀ (config : Config) (s : MonState) (current_time : Int) (s1 : MonState)
        (a1 : List Action) (o1 : List Nat),
        step config s current_time ReadEvent.eofRead = StepResult.ok s1 a1 o1 →
        o1 = [] ∧ s1.eof_reached = true) ∧
    (∀ (config : Config) (start : Int) (trace : List (Int × ReadEvent))
        (s : MonState) (acts : List Action) (out : List Nat),
        run config start trace = RunOutcome.ok s acts out →
        countEof acts =
          if s.eof_reached && config.eof_command.isSome then 1 else 0) := by
  refine ⟨fun config s acts out rest h => ?_,
    fun config s current_time s1 a1 o1 h => ?_,
    fun config start trace s acts out h => ?_⟩
  · cases rest with
    | nil => rfl
    | cons p r => simp [runAux, h]
  · rw [step_eofRead] at h
    injection h with h1 h2 h3
    exact ⟨h3.symm, by rw [← h1, idleCheck_eof]⟩
  · have hinv := runAux_countEof config trace (initState start) [] [] s acts out h
    have h0 : (if ((initState start).eof_reached && config.eof_command.isSome) = true
        then 1 else 0) = 0 := by simp [initState]
    have h1 : countEof ([] : List Action) = 0 := rfl
    omega

/-- Witness for C1: the terminal state absorbs further iterations; an
EOF iteration from the initial state forwards nothing and is terminal;
and a run consisting of an immediate EOF with an EOF command configured
invokes the EOF action exactly once. -/
theorem eof_terminal_amended_witness :
    runAux defaultConfig
        { last_data_time := 0, state_start_time := 0,
          is_idle := true, eof_reached := true } [] [] [(1, ReadEvent.noReady)] =
      RunOutcome.ok
        { last_data_time := 0, state_start_time := 0,
          is_idle := true, eof_reached := true } [] [] ∧
    (([] : List Nat) = [] ∧
      ({ last_data_time := 0, state_start_time := 0,
         is_idle := true, eof_reached := true } : MonState).eof_reached = true) ∧
    countEof [Action.onEof "E"] =
      (if ({ last_data_time := 0, state_start_time := 0,
             is_idle := true, eof_reached := true } : MonState).eof_reached
            && cfgE.eof_command.isSome then 1 else 0) :=
  ⟨eof_terminal_amended.1 defaultConfig
      { last_data_time := 0, state_start_time := 0,
        is_idle := true, eof_reached := true } [] [] [(1, ReadEvent.noReady)] rfl,
    eof_terminal_amended.2.1 defaultConfig (initState 0) 0
      { last_data_time := 0, state_start_time := 0,
        is_idle := true, eof_reached := true } [] [] (by decide),
    eof_terminal_amended.2.2 cfgE 0 [(0, ReadEvent.eofRead)]
      { last_data_time := 0, state_start_time := 0,
        is_idle := true, eof_reached := true } [Action.onEof "E"] [] (by decide)⟩

end Idlecat
